import Mathlib

/-!
Verification of the data-filtering compiler in `polar.py` (`Polar.authorized_query`,
`Polar.authorized_resources` and the classification / branch-synthesis code inside them).

The embedding is shallow: Python dicts become association lists (insertion order is
list order), Python exceptions become an `Except` error channel, and the external
collaborators that live outside this file's source — the FFI constraint solver
`build_filter_plan`, the plan executor `filter_data`, and the policy evaluator reached
through `query_rule` — are parameters of the compiled pipeline.  Host values and polar
wire terms are identified in a single `Term` type, so `Host.to_polar` is the identity
on it.
-/

namespace Oso

/-- Polar terms and host values, identified (the wire form and the host form carry the
same information for this subsystem).  `expr` embeds `Expression(operator, args)`,
`pattern` embeds `Pattern(tag, fields)`, `var` embeds `Variable(name)`, and `obj`
is a concrete host object given by its attribute dictionary. -/
inductive Term where
  | int : Int → Term
  | str : String → Term
  | boolean : Bool → Term
  | var : String → Term
  | obj : List (String × Term) → Term
  | expr : String → List Term → Term
  | pattern : String → List (String × Term) → Term

/-- `isinstance(v, Expression)`: only `Expression` nodes count — `Variable` and
`Pattern` are distinct classes in the source. -/
def Term.isExpression : Term → Bool
  | .expr _ _ => true
  | _ => false

/-- `self.host.to_polar(v)`: serialization of a host value to a polar term.  Since the
embedding identifies the two representations, it is the identity map. -/
def to_polar (t : Term) : Term := t

/-- Python `getattr(c, k)`: reads attribute `k` off a concrete object; `none` models
the `AttributeError` raised when the attribute is missing. -/
def getattr : Term → String → Option Term
  | .obj attrs, k => (attrs.find? (fun kv => kv.1 == k)).map (fun kv => kv.2)
  | _, _ => none

/-- A field declared on a registered type: either a primitive attribute or a
`Relation(kind, other_type, my_field, other_field)` from `data_filtering.py`. -/
inductive FieldSpec where
  | primitive : String → FieldSpec
  | relation : String → String → String → String → FieldSpec
deriving DecidableEq

/-- `isinstance(t, Relation)`. -/
def FieldSpec.isRelation : FieldSpec → Bool
  | .relation _ _ _ _ => true
  | _ => false

/-- The wrapped constraint value `{"Term": ...}` built at polar.py line 326. -/
inductive CValue where
  | term : Term → CValue

/-- A structured per-field constraint `{"kind": ..., "field": ..., "value": ...}`. -/
structure Constraint where
  kind : String
  field : String
  value : CValue

/-- One request of a filter-plan branch: `{"class_tag": ..., "constraints": [...]}`. -/
structure Request where
  class_tag : String
  constraints : List Constraint

/-- One branch (`result_set`) of a filter plan.  As in the source, `requests` is keyed
by decimal-string request ids (JSON object keys) while `resolve_order` and
`result_id` hold the numeric ids themselves. -/
structure ResultSet where
  requests : List (String × Request)
  resolve_order : List Nat
  result_id : Nat

/-- The compiled filter plan: `{"result_sets": [...]}`. -/
structure FilterPlan where
  result_sets : List ResultSet

/-- The backend query object produced by `filter_data` (opaque to this subsystem). -/
structure FilterQuery where
  plan : FilterPlan

/-- A registry entry (`host.types[...]`): registered name, ordered field declarations,
and the three optional data-filtering capabilities.  `build_query` and
`combine_query` matter only through their presence; `exec_query` is called by
`authorized_resources` so it is kept as a function. -/
structure TypeEntry where
  name : String
  fields : List (String × FieldSpec)
  build_query : Option Unit
  exec_query : Option (FilterQuery → List Term)
  combine_query : Option Unit

/-- The read-only registry slice of `Host` that `authorized_query` consults.  The
source keys `host.types` both by class object and by registered name, with both keys
mapping to the same entry; here a key is a string. -/
structure Host where
  types : List (String × TypeEntry)

/-- The Python exceptions that can surface from the modelled code paths. -/
inductive PyError where
  | keyError : String → PyError
  | assertionError : String → PyError
  | attributeError : String → PyError
  | typeError : String → PyError
deriving DecidableEq

/-- One evaluation result: its `"bindings"` dictionary. -/
structure EvalResult where
  bindings : List (String × Term)

/-- The query issued through `query_rule` at the start of `authorized_query`:
name, positional arguments, pre-set bindings, and the `accept_expression` flag. -/
structure QueryCall where
  name : String
  args : List Term
  bindings : List (String × Term)
  accept_expression : Bool

/-- The policy evaluator (the VM behind `query_rule`), an external collaborator. -/
abbrev Evaluator := QueryCall → List EvalResult

/-- The FFI constraint solver `self.ffi_polar.build_filter_plan(types, partial,
"resource", class_name)`; the `serialize_types` step is folded into the opaque
function, which therefore receives the host directly. -/
abbrev Solver := Host → List EvalResult → String → String → FilterPlan

/-- The plan executor entry point `filter_data(self, plan)` from
`data_filtering.py` (external to this source file); `none` models a `None` return. -/
abbrev FilterData := FilterPlan → Option FilterQuery

/-- The constraint pre-bound to `resource`:
`Expression("And", [Expression("Isa", [resource, Pattern(class_name, {})])])`. -/
def issuedConstraint (class_name : String) : Term :=
  .expr "And" [.expr "Isa" [.var "resource", .pattern class_name []]]

/-- The exact `query_rule` call made by `authorized_query` (polar.py lines 284-293):
`query_rule("allow", actor, action, resource, bindings={"resource": constraint},
accept_expression=True)`. -/
def issuedQuery (actor action : Term) (class_name : String) : QueryCall :=
  { name := "allow"
    args := [actor, action, .var "resource"]
    bindings := [("resource", issuedConstraint class_name)]
    accept_expression := true }

/-- The inner loop of the classification step (polar.py lines 300-304) over one
result's bindings: an `Expression` binding contributes a reduced singleton result to
`partial`, any other binding value is appended to `complete`. -/
def classifyBindings : List (String × Term) → List Term × List EvalResult
  | [] => ([], [])
  | (k, v) :: rest =>
    let (comp, parts) := classifyBindings rest
    if v.isExpression then (comp, ⟨[(k, to_polar v)]⟩ :: parts)
    else (v :: comp, parts)

/-- The classification step (polar.py lines 297-304): one pass over all results,
accumulating `(complete, partial)` in iteration order. -/
def classify : List EvalResult → List Term × List EvalResult
  | [] => ([], [])
  | r :: rest =>
    let (c₁, p₁) := classifyBindings r.bindings
    let (c₂, p₂) := classify rest
    (c₁ ++ c₂, p₁ ++ p₂)

/-- The constraint-building loop over `typ.fields.items()` (polar.py lines 321-328):
a `Relation` field is skipped, any other field contributes
`{"kind": "Eq", "field": k, "value": {"Term": to_polar(getattr(c, k))}}`. -/
def synthConstraints : List (String × FieldSpec) → Term → Except PyError (List Constraint)
  | [], _ => .ok []
  | (k, ft) :: rest, c =>
    match ft with
    | .relation _ _ _ _ => synthConstraints rest c
    | .primitive _ =>
      match getattr c k with
      | none => .error (.attributeError k)
      | some v =>
        match synthConstraints rest c with
        | .error e => .error e
        | .ok cs => .ok ({ kind := "Eq", field := k, value := .term (to_polar v) } :: cs)

/-- The `result_set` literal built for one complete value (polar.py lines 330-336). -/
def synthResultSet (class_name : String) (constraints : List Constraint) : ResultSet :=
  { requests := [("0", { class_tag := class_name, constraints := constraints })]
    resolve_order := [0]
    result_id := 0 }

/-- The `for c in complete` loop (polar.py lines 313-337): per iteration, look up the
root type by name, fail the `assert` when it has no `build_query`, then build the
synthesized branch. -/
def buildNewResultSets (host : Host) (class_name : String) :
    List Term → Except PyError (List ResultSet)
  | [] => .ok []
  | c :: rest =>
    match host.types.lookup class_name with
    | none => .error (.keyError class_name)
    | some typ =>
      if typ.build_query.isNone then
        .error (.assertionError "Can only filter registered classes")
      else
        match synthConstraints typ.fields c with
        | .error e => .error e
        | .ok cs =>
          match buildNewResultSets host class_name rest with
          | .error e => .error e
          | .ok more => .ok (synthResultSet class_name cs :: more)

/-- The plan-compilation tail of `authorized_query` (polar.py lines 306-338): call the
solver on the partial results, then, only when at least one complete value exists,
append one synthesized branch per complete value to the solver's `result_sets`. -/
def compileFilterPlan (solver : Solver) (host : Host) (class_name : String)
    (partials : List EvalResult) (complete : List Term) : Except PyError FilterPlan :=
  let plan := solver host partials "resource" class_name
  if complete.length > 0 then
    match buildNewResultSets host class_name complete with
    | .error e => .error e
    | .ok newSets => .ok { result_sets := plan.result_sets ++ newSets }
  else
    .ok plan

/-- `Polar.authorized_query` (polar.py lines 264-340): look up the registered name of
`cls`, run the `allow` query with `resource` pre-bound to the type-membership
constraint, classify the results, compile the filter plan, and hand it to
`filter_data`. -/
def authorized_query (evaluator : Evaluator) (solver : Solver) (fd : FilterData)
    (host : Host) (actor action : Term) (cls : String) :
    Except PyError (Option FilterQuery) :=
  match host.types.lookup cls with
  | none => .error (.keyError cls)
  | some entry =>
    let results := evaluator (issuedQuery actor action entry.name)
    let pr := classify results
    match compileFilterPlan solver host entry.name pr.2 pr.1 with
    | .error e => .error e
    | .ok plan => .ok (fd plan)

/-- `Polar.authorized_resources` (polar.py lines 342-348): a `None` query yields `[]`;
otherwise the registered `exec_query` capability runs the query (calling a missing
capability would be a `TypeError` in Python). -/
def authorized_resources (evaluator : Evaluator) (solver : Solver) (fd : FilterData)
    (host : Host) (actor action : Term) (cls : String) :
    Except PyError (List Term) :=
  match authorized_query evaluator solver fd host actor action cls with
  | .error e => .error e
  | .ok none => .ok []
  | .ok (some q) =>
    match host.types.lookup cls with
    | none => .error (.keyError cls)
    | some entry =>
      match entry.exec_query with
      | none => .error (.typeError "exec_query is not callable")
      | some f => .ok (f q)

/-! ## Spec-side characterizations

These definitions follow the specification's words, for comparison against the
definitions above, which are translated from the source. -/

/-- Follows the spec's words (§4.1): classification keyed on the *target variable
only* — the concrete value bound to the target variable goes to `complete` when it is
not a constraint expression; when it is one, a reduced result holding only that
binding goes to `partial`, all other variables' bindings being dropped.  (The spec
treats an absent target binding as an error; that aspect is examined separately, so
an absent binding contributes nothing here.) -/
def specClassify (tvar : String) : List EvalResult → List Term × List EvalResult
  | [] => ([], [])
  | r :: rest =>
    let (comp, parts) := specClassify tvar rest
    match r.bindings.lookup tvar with
    | none => (comp, parts)
    | some v =>
      if v.isExpression then (comp, ⟨[(tvar, v)]⟩ :: parts)
      else (v :: comp, parts)

/-- Follows the spec's words (§4.2 step 2): one field-equality constraint per
non-relation field declared on the root type, in declaration order, each comparing
the field to the same-named attribute read off the concrete object; relation fields
contribute no constraint. -/
def specEqConstraints (fields : List (String × FieldSpec)) (c : Term) : List Constraint :=
  match fields with
  | [] => []
  | (k, ft) :: rest =>
    if ft.isRelation then specEqConstraints rest c
    else { kind := "Eq", field := k, value := .term ((getattr c k).getD (.var "")) }
           :: specEqConstraints rest c

/-- The plan invariant of spec §3 for one branch: every request-id appearing in
`resolve_order` exists in `requests` (request ids are stored as decimal-string keys,
so id `i` corresponds to key `toString i`). -/
def ResultSet.validOrder (rs : ResultSet) : Bool :=
  rs.resolve_order.all (fun i => (rs.requests.lookup (toString i)).isSome)

/-! ## Modelled external collaborators

`build_filter_plan` lives in the Rust FFI and `filter_data` in `data_filtering.py`;
neither is part of this source file, so concrete instances used by witnesses are
modelled from the spec. -/

/-- Modelled from the spec: `build_filter_plan` (the external constraint solver,
missing from this source) returns "for each partial result, one branch" (§4.2
step 1); the branch contents are the solver's own business, so a minimal
single-request branch stands in for them here. -/
def build_filter_planModel : Solver := fun _host partials _tvar class_name =>
  { result_sets := partials.map (fun _ =>
      { requests := [("0", { class_tag := class_name, constraints := [] })]
        resolve_order := [0]
        result_id := 0 }) }

/-- Modelled from the spec: `filter_data` (the plan-executor entry point in
`data_filtering.py`, missing from this source) combines the per-branch queries and
returns `None` exactly when the plan has zero branches (§8: an empty plan must make
`authorized_resources` return an empty result set). -/
def filter_dataModel : FilterData := fun plan =>
  if plan.result_sets.isEmpty then none else some { plan := plan }

/-! ## Concrete fixtures used by witnesses and counterexamples -/

/-- A registered type with two primitive fields and one relation, in the spirit of
the spec's round-trip example (§8). -/
def docEntry : TypeEntry :=
  { name := "Doc"
    fields := [("id", .primitive "Integer"), ("name", .primitive "String"),
               ("folder", .relation "one" "Folder" "folder_id" "id")]
    build_query := some ()
    exec_query := some (fun _ => [])
    combine_query := none }

/-- A registered type with no data-filtering capabilities. -/
def bareEntry : TypeEntry :=
  { name := "Bare"
    fields := [("id", .primitive "Integer")]
    build_query := none
    exec_query := none
    combine_query := none }

/-- A registry holding both fixture types. -/
def host₀ : Host := { types := [("Doc", docEntry), ("Bare", bareEntry)] }

/-- The spec's round-trip object: fields `{id: 7, name: "x"}` (plus the relation
attribute, which synthesized constraints must ignore). -/
def obj₀ : Term := .obj [("id", .int 7), ("name", .str "x"), ("folder", .int 3)]

/-- A partial (constraint-expression) binding for the target variable. -/
def partialExpr : Term := .expr "And" [.expr "Isa" [.var "resource", .pattern "Doc" []]]

/-- An evaluation result carrying a constraint-expression binding for the target
variable together with a concrete binding for an unrelated variable. -/
def r₀ : EvalResult := ⟨[("resource", partialExpr), ("other", .int 5)]⟩

/-! ## Helper lemmas -/

/-- When every non-relation field of `fields` is present as an attribute of `c`, the
constraint-building loop succeeds and produces exactly the spec's per-field equality
constraints. -/
theorem synthConstraints_eq_spec (fields : List (String × FieldSpec)) (c : Term)
    (h : ∀ kt ∈ fields, kt.2.isRelation = false → (getattr c kt.1).isSome = true) :
    synthConstraints fields c = .ok (specEqConstraints fields c) := by
  induction fields with
  | nil => rfl
  | cons kt rest ih =>
    obtain ⟨k, ft⟩ := kt
    have ih' := ih (fun kt' hkt' => h kt' (List.mem_cons_of_mem _ hkt'))
    cases ft with
    | relation a b d e =>
      simp [synthConstraints, specEqConstraints, FieldSpec.isRelation, ih']
    | primitive ty =>
      have hsome : (getattr c k).isSome = true :=
        h (k, .primitive ty) (List.mem_cons_self ..) rfl
      obtain ⟨v, hv⟩ := Option.isSome_iff_exists.mp hsome
      simp [synthConstraints, specEqConstraints, FieldSpec.isRelation, ih', hv, to_polar]

/-- The `for c in complete` loop, when the root type is registered with a
`build_query` capability and all needed attributes exist, produces exactly one
synthesized branch per complete value, in order. -/
theorem buildNewResultSets_eq (host : Host) (cn : String) (typ : TypeEntry)
    (htyp : host.types.lookup cn = some typ) (hbq : typ.build_query = some ())
    (l : List Term)
    (hattr : ∀ c ∈ l, ∀ kt ∈ typ.fields,
      kt.2.isRelation = false → (getattr c kt.1).isSome = true) :
    buildNewResultSets host cn l =
      .ok (l.map (fun c => synthResultSet cn (specEqConstraints typ.fields c))) := by
  induction l with
  | nil => rfl
  | cons c rest ih =>
    have hc := hattr c (List.mem_cons_self ..)
    have ih' := ih (fun c' hc' => hattr c' (List.mem_cons_of_mem _ hc'))
    simp [buildNewResultSets, htyp, hbq, synthConstraints_eq_spec typ.fields c hc, ih']

/-- Every branch produced by the `for c in complete` loop satisfies the
resolve-order invariant: its `resolve_order` is `[0]` and request id `0` is stored
under key `"0"`. -/
theorem mem_buildNewResultSets_validOrder (host : Host) (cn : String) (l : List Term)
    (sets : List ResultSet) (h : buildNewResultSets host cn l = .ok sets) :
    ∀ rs ∈ sets, rs.validOrder = true := by
  induction l generalizing sets with
  | nil =>
    simp only [buildNewResultSets] at h
    cases h
    intro rs hrs
    cases hrs
  | cons c rest ih =>
    simp only [buildNewResultSets] at h
    split at h
    · cases h
    · split at h
      · cases h
      · split at h
        · cases h
        · split at h
          · cases h
          · rename_i typ hl hbq cs hsc more hrec
            cases h
            intro rs hrs
            rcases List.mem_cons.mp hrs with hhead | htail
            · subst hhead; rfl
            · exact ih more hrec rs htail

/-! ## Claims -/

/-- C2 (counterexample): the classification loop iterates over *every* binding of
every result, not only the target variable's.  On a result that binds the target
variable to a constraint expression and an unrelated variable to the concrete value
`5`, the code appends `5` to `complete`, while the claim says all non-target bindings
are dropped, so `complete` must stay empty. -/
theorem C2_counterexample :
    (classify [r₀]).1 = [Term.int 5] ∧
    (specClassify "resource" [r₀]).1 = [] ∧
    classify [r₀] ≠ specClassify "resource" [r₀] := by
  refine ⟨rfl, rfl, fun h => ?_⟩
  have h1 : (classify [r₀]).1 = (specClassify "resource" [r₀]).1 := by rw [h]
  rw [show (classify [r₀]).1 = [Term.int 5] from rfl,
      show (specClassify "resource" [r₀]).1 = [] from rfl] at h1
  exact List.noConfusion h1

/-- C2 (amended): when every result binds exactly the target variable and nothing
else — the shape the `allow` query produces, since the target is its only variable —
the code's classification coincides with the spec's partition: concrete bindings go
to `complete`, constraint-expression bindings become reduced singleton `partial`
results. -/
theorem C2_target_only_partition (tvar : String) (results : List EvalResult)
    (h : ∀ r ∈ results, ∃ v, r.bindings = [(tvar, v)]) :
    classify results = specClassify tvar results := by
  induction results with
  | nil => rfl
  | cons r rest ih =>
    obtain ⟨v, hv⟩ := h r (List.mem_cons_self ..)
    have ih' := ih (fun r' hr' => h r' (List.mem_cons_of_mem _ hr'))
    by_cases hexp : v.isExpression
    · simp [classify, specClassify, hv, classifyBindings, List.lookup, ih', to_polar, hexp]
    · simp [classify, specClassify, hv, classifyBindings, List.lookup, ih', to_polar, hexp]

/-- C5 (counterexample): a result whose target-variable binding is absent raises no
error at all.  A result with an empty bindings dictionary classifies to nothing, and
the whole `authorized_query` call on such a stream succeeds, returning a filter
query of `None` — it does not fail with `InvalidQueryTypeError` or any other error. -/
theorem C5_counterexample :
    classify [⟨[]⟩] = ([], []) ∧
    authorized_query (fun _ => [⟨[]⟩]) build_filter_planModel filter_dataModel host₀
      (Term.str "alice") (Term.str "read") "Doc" = .ok none := by
  exact ⟨rfl, rfl⟩

/-- C5 (amended): classification never checks for the target variable at all: a
result with no bindings is silently dropped — it contributes nothing to either
collection and the classification of the remaining results is unchanged.
(`InvalidQueryTypeError` is raised only by `query()` when its query argument is
neither a string nor a `Predicate`, a path `authorized_query` never takes.) -/
theorem C5_absent_binding_silently_dropped (results : List EvalResult)
    (r : EvalResult) (hr : r.bindings = []) :
    classify (r :: results) = classify results := by
  simp [classify, hr, classifyBindings]

/-- C1: when evaluation yields at least one complete result (and the root type is
registered with `build_query` and carries every needed attribute), the compiled plan
is the solver's branches followed by exactly one synthesized branch per complete
value, in order; each synthesized branch holds a single request (under id key `"0"`)
against the root class whose constraints are the spec's per-field equality
constraints — one `Eq` per non-relation field, in field-declaration order, against
the same-named attribute of the object — and whose `resolve_order` lists only that
request. -/
theorem C1_complete_value_branches (evaluator : Evaluator) (solver : Solver)
    (fd : FilterData) (host : Host) (actor action : Term) (cls className : String)
    (entry typ : TypeEntry) (complete : List Term) (partials : List EvalResult)
    (hcls : host.types.lookup cls = some entry) (hname : entry.name = className)
    (htyp : host.types.lookup className = some typ)
    (hbq : typ.build_query = some ())
    (hclassify : classify (evaluator (issuedQuery actor action className)) =
      (complete, partials))
    (hne : complete ≠ [])
    (hattr : ∀ c ∈ complete, ∀ kt ∈ typ.fields,
      kt.2.isRelation = false → (getattr c kt.1).isSome = true) :
    authorized_query evaluator solver fd host actor action cls =
      .ok (fd { result_sets :=
        (solver host partials "resource" className).result_sets ++
        complete.map (fun c =>
          { requests := [("0", { class_tag := className
                                 constraints := specEqConstraints typ.fields c })]
            resolve_order := [0]
            result_id := 0 }) }) := by
  subst hname
  have hlen : 0 < complete.length := List.length_pos.mpr hne
  simp only [authorized_query, hcls, hclassify, compileFilterPlan, if_pos hlen,
    buildNewResultSets_eq host entry.name typ htyp hbq complete hattr]
  rfl

/-- C3: when the root type has no `build_query` capability and at least one complete
result exists, `authorized_query` fails with the `AssertionError` "Can only filter
registered classes" — no plan, partial or otherwise, is returned. -/
theorem C3_missing_build_query_fails (evaluator : Evaluator) (solver : Solver)
    (fd : FilterData) (host : Host) (actor action : Term) (cls className : String)
    (entry typ : TypeEntry) (complete : List Term) (partials : List EvalResult)
    (hcls : host.types.lookup cls = some entry) (hname : entry.name = className)
    (htyp : host.types.lookup className = some typ)
    (hbq : typ.build_query = none)
    (hclassify : classify (evaluator (issuedQuery actor action className)) =
      (complete, partials))
    (hne : complete ≠ []) :
    authorized_query evaluator solver fd host actor action cls =
      .error (.assertionError "Can only filter registered classes") := by
  subst hname
  cases complete with
  | nil => exact absurd rfl hne
  | cons c rest =>
    simp [authorized_query, hcls, hclassify, compileFilterPlan, buildNewResultSets,
      htyp, hbq]

/-- C4: if every solver-produced branch satisfies the resolve-order invariant —
every request-id in `resolve_order` is stored in `requests` (under its
decimal-string key) — then every branch of the successfully compiled plan,
synthesized branches included, satisfies it. -/
theorem C4_resolve_order_in_requests (solver : Solver) (host : Host)
    (className : String) (partials : List EvalResult) (complete : List Term)
    (plan : FilterPlan)
    (hsolver : ∀ rs ∈ (solver host partials "resource" className).result_sets,
      rs.validOrder = true)
    (hok : compileFilterPlan solver host className partials complete = .ok plan) :
    ∀ rs ∈ plan.result_sets, rs.validOrder = true := by
  simp only [compileFilterPlan] at hok
  split at hok
  · split at hok
    · cases hok
    · rename_i newSets hnew
      cases hok
      intro rs hrs
      rcases List.mem_append.mp hrs with hsolve | hsynth
      · exact hsolver rs hsolve
      · exact mem_buildNewResultSets_validOrder host className complete newSets hnew
          rs hsynth
  · cases hok
    exact hsolver

/-- C6: when classification produces no complete values, the synthesized-branch step
contributes nothing: the compiled plan is exactly the solver's plan, unchanged, and
that is what is handed to `filter_data`. -/
theorem C6_partial_only_plan_unchanged (evaluator : Evaluator) (solver : Solver)
    (fd : FilterData) (host : Host) (actor action : Term) (cls className : String)
    (entry : TypeEntry) (partials : List EvalResult)
    (hcls : host.types.lookup cls = some entry) (hname : entry.name = className)
    (hclassify : classify (evaluator (issuedQuery actor action className)) =
      ([], partials)) :
    compileFilterPlan solver host className partials [] =
      .ok (solver host partials "resource" className) ∧
    authorized_query evaluator solver fd host actor action cls =
      .ok (fd (solver host partials "resource" className)) := by
  subst hname
  refine ⟨rfl, ?_⟩
  simp only [authorized_query, hcls, hclassify]
  rfl

/-- C7: `authorized_query` consults the evaluator only through the single query
`allow(actor, action, resource)` issued with `accept_expression` and with the target
variable `resource` pre-bound to
`And([Isa(resource, Pattern(className, {}))])`, `className` being the registered
name of `cls`: two evaluators agreeing on that one query give identical outcomes. -/
theorem C7_query_start_binding (e₁ e₂ : Evaluator) (solver : Solver)
    (fd : FilterData) (host : Host) (actor action : Term) (cls className : String)
    (entry : TypeEntry)
    (hcls : host.types.lookup cls = some entry) (hname : entry.name = className)
    (hagree : e₁ (issuedQuery actor action className) =
      e₂ (issuedQuery actor action className)) :
    issuedQuery actor action className =
      { name := "allow"
        args := [actor, action, .var "resource"]
        bindings := [("resource", Term.expr "And"
          [Term.expr "Isa" [Term.var "resource", Term.pattern className []]])]
        accept_expression := true } ∧
    authorized_query e₁ solver fd host actor action cls =
      authorized_query e₂ solver fd host actor action cls := by
  subst hname
  refine ⟨rfl, ?_⟩
  simp only [authorized_query, hcls, hagree]

/-- C8: an empty result stream gives an empty classification, a compiled plan with
zero branches (given the solver returns no branches for no partial results), and an
`authorized_resources` call that returns `[]` without error. -/
theorem C8_empty_results (evaluator : Evaluator) (solver : Solver) (fd : FilterData)
    (host : Host) (actor action : Term) (cls className : String) (entry : TypeEntry)
    (hcls : host.types.lookup cls = some entry) (hname : entry.name = className)
    (hev : evaluator (issuedQuery actor action className) = [])
    (hsolver : (solver host [] "resource" className).result_sets = [])
    (hfd : ∀ p : FilterPlan, p.result_sets = [] → fd p = none) :
    (∃ plan, compileFilterPlan solver host className [] [] = .ok plan ∧
      plan.result_sets = []) ∧
    authorized_resources evaluator solver fd host actor action cls = .ok [] := by
  subst hname
  refine ⟨⟨solver host [] "resource" entry.name, rfl, hsolver⟩, ?_⟩
  have hq : authorized_query evaluator solver fd host actor action cls = .ok none := by
    simp only [authorized_query, hcls, hev]
    show Except.ok (fd (solver host [] "resource" entry.name)) = .ok none
    rw [hfd _ hsolver]
  simp only [authorized_resources, hq]

/-- C9: plan compilation is deterministic — compiling equal
`(partialResults, completeResults)` pairs with the same (deterministic) solver gives
structurally equal plans: equal as values, hence same branch count, same requests
and constraints per branch, and same resolve orders. -/
theorem C9_compile_deterministic (solver : Solver) (host : Host) (className : String)
    (p₁ p₂ : List EvalResult) (c₁ c₂ : List Term) (plan₁ plan₂ : FilterPlan)
    (hp : p₁ = p₂) (hc : c₁ = c₂)
    (h₁ : compileFilterPlan solver host className p₁ c₁ = .ok plan₁)
    (h₂ : compileFilterPlan solver host className p₂ c₂ = .ok plan₂) :
    plan₁ = plan₂ ∧
    plan₁.result_sets.length = plan₂.result_sets.length ∧
    plan₁.result_sets.map ResultSet.requests = plan₂.result_sets.map ResultSet.requests ∧
    plan₁.result_sets.map ResultSet.resolve_order =
      plan₂.result_sets.map ResultSet.resolve_order := by
  subst hp
  subst hc
  rw [h₁] at h₂
  cases h₂
  exact ⟨rfl, rfl, rfl, rfl⟩

/-- C10: the `build_query` capability is consulted only under `len(complete) > 0`:
on a stream classifying to no complete values, `authorized_query` succeeds with the
solver's plan even though the root type has no `build_query` registered. -/
theorem C10_no_capability_check_without_complete (evaluator : Evaluator)
    (solver : Solver) (fd : FilterData) (host : Host) (actor action : Term)
    (cls className : String) (entry typ : TypeEntry) (partials : List EvalResult)
    (hcls : host.types.lookup cls = some entry) (hname : entry.name = className)
    (htyp : host.types.lookup className = some typ)
    (hbq : typ.build_query = none)
    (hclassify : classify (evaluator (issuedQuery actor action className)) =
      ([], partials)) :
    authorized_query evaluator solver fd host actor action cls =
      .ok (fd (solver host partials "resource" className)) := by
  subst hname
  simp only [authorized_query, hcls, hclassify]
  rfl

/-! ## Witnesses: each theorem above applied at a concrete input -/

/-- An evaluator yielding one complete result for the target variable. -/
def evComplete : Evaluator := fun _ => [⟨[("resource", obj₀)]⟩]

/-- An evaluator yielding one partial result for the target variable. -/
def evPartial : Evaluator := fun _ => [⟨[("resource", partialExpr)]⟩]

/-- An evaluator yielding no results. -/
def evEmpty : Evaluator := fun _ => []

/-- An evaluator that agrees with `evEmpty` on `allow` queries but not elsewhere. -/
def evElsewhere : Evaluator := fun q => if q.name == "allow" then [] else [⟨[]⟩]

/-- The plan compiled from the single complete value `obj₀` (no partial results). -/
def planComplete : FilterPlan :=
  { result_sets :=
    (build_filter_planModel host₀ [] "resource" "Doc").result_sets ++
    [obj₀].map (fun c =>
      { requests := [("0", { class_tag := "Doc"
                             constraints := specEqConstraints docEntry.fields c })]
        resolve_order := [0]
        result_id := 0 }) }

/-- The plan compiled from one partial result and one complete value. -/
def planMixed : FilterPlan :=
  { result_sets :=
    [{ requests := [("0", { class_tag := "Doc", constraints := [] })]
       resolve_order := [0]
       result_id := 0 },
     synthResultSet "Doc" (specEqConstraints docEntry.fields obj₀)] }

/-- C1 applied to a single complete object of type `Doc` with fields
`{id: 7, name: "x"}` — the spec's round-trip example. -/
theorem C1_complete_value_branches_witness :
    authorized_query evComplete build_filter_planModel filter_dataModel host₀
      (.str "alice") (.str "read") "Doc" = .ok (filter_dataModel planComplete) :=
  C1_complete_value_branches evComplete build_filter_planModel filter_dataModel
    host₀ (.str "alice") (.str "read") "Doc" "Doc" docEntry docEntry [obj₀] []
    rfl rfl rfl rfl rfl (by simp) (by decide)

/-- C2 (amended) applied to a stream of two results, one complete and one partial,
each binding only the target variable. -/
theorem C2_target_only_partition_witness :
    classify [⟨[("resource", obj₀)]⟩, ⟨[("resource", partialExpr)]⟩] =
      specClassify "resource" [⟨[("resource", obj₀)]⟩, ⟨[("resource", partialExpr)]⟩] :=
  C2_target_only_partition "resource"
    [⟨[("resource", obj₀)]⟩, ⟨[("resource", partialExpr)]⟩]
    (by
      intro r hr
      rcases List.mem_cons.mp hr with rfl | h
      · exact ⟨obj₀, rfl⟩
      · rw [List.mem_singleton] at h
        subst h
        exact ⟨partialExpr, rfl⟩)

/-- C3 applied to a complete result for the capability-less type `Bare`. -/
theorem C3_missing_build_query_fails_witness :
    authorized_query evComplete build_filter_planModel filter_dataModel host₀
      (.str "alice") (.str "read") "Bare" =
      .error (.assertionError "Can only filter registered classes") :=
  C3_missing_build_query_fails evComplete build_filter_planModel filter_dataModel
    host₀ (.str "alice") (.str "read") "Bare" "Bare" bareEntry bareEntry [obj₀] []
    rfl rfl rfl rfl rfl (by simp)

/-- C4 applied to a plan compiled from one partial and one complete result. -/
theorem C4_resolve_order_in_requests_witness :
    planMixed.result_sets.all (fun rs => rs.validOrder) = true := by
  have h := C4_resolve_order_in_requests build_filter_planModel host₀ "Doc"
    [⟨[("resource", partialExpr)]⟩] [obj₀] planMixed (by decide) rfl
  exact List.all_eq_true.mpr (fun rs hrs => h rs hrs)

/-- C5 (amended) applied to a bindingless result in front of the fixture stream. -/
theorem C5_absent_binding_silently_dropped_witness :
    classify (⟨[]⟩ :: [r₀]) = classify [r₀] :=
  C5_absent_binding_silently_dropped [r₀] ⟨[]⟩ rfl

/-- C6 applied to a stream holding a single partial result. -/
theorem C6_partial_only_plan_unchanged_witness :
    compileFilterPlan build_filter_planModel host₀ "Doc"
      [⟨[("resource", partialExpr)]⟩] [] =
      .ok (build_filter_planModel host₀ [⟨[("resource", partialExpr)]⟩]
        "resource" "Doc") ∧
    authorized_query evPartial build_filter_planModel filter_dataModel host₀
      (.str "alice") (.str "read") "Doc" =
      .ok (filter_dataModel (build_filter_planModel host₀
        [⟨[("resource", partialExpr)]⟩] "resource" "Doc")) :=
  C6_partial_only_plan_unchanged evPartial build_filter_planModel
    filter_dataModel host₀ (.str "alice") (.str "read") "Doc" "Doc" docEntry
    [⟨[("resource", partialExpr)]⟩] rfl rfl rfl

/-- C7 applied to two evaluators that agree on the issued `allow` query. -/
theorem C7_query_start_binding_witness :
    issuedQuery (.str "alice") (.str "read") "Doc" =
      { name := "allow"
        args := [.str "alice", .str "read", .var "resource"]
        bindings := [("resource", Term.expr "And"
          [Term.expr "Isa" [Term.var "resource", Term.pattern "Doc" []]])]
        accept_expression := true } ∧
    authorized_query evEmpty build_filter_planModel filter_dataModel host₀
      (.str "alice") (.str "read") "Doc" =
      authorized_query evElsewhere build_filter_planModel filter_dataModel host₀
        (.str "alice") (.str "read") "Doc" :=
  C7_query_start_binding evEmpty evElsewhere build_filter_planModel
    filter_dataModel host₀ (.str "alice") (.str "read") "Doc" "Doc" docEntry
    rfl rfl rfl

/-- C8 applied to an evaluator that yields no results at all. -/
theorem C8_empty_results_witness :
    (∃ plan, compileFilterPlan build_filter_planModel host₀ "Doc" [] [] =
        .ok plan ∧ plan.result_sets = []) ∧
    authorized_resources evEmpty build_filter_planModel filter_dataModel host₀
      (.str "alice") (.str "read") "Doc" = .ok [] :=
  C8_empty_results evEmpty build_filter_planModel filter_dataModel host₀
    (.str "alice") (.str "read") "Doc" "Doc" docEntry rfl rfl rfl rfl
    (fun p hp => by simp [filter_dataModel, hp])

/-- C9 applied twice to the same one-partial, one-complete input. -/
theorem C9_compile_deterministic_witness :
    planMixed = planMixed ∧
    planMixed.result_sets.length = planMixed.result_sets.length ∧
    planMixed.result_sets.map ResultSet.requests =
      planMixed.result_sets.map ResultSet.requests ∧
    planMixed.result_sets.map ResultSet.resolve_order =
      planMixed.result_sets.map ResultSet.resolve_order :=
  C9_compile_deterministic build_filter_planModel host₀ "Doc"
    [⟨[("resource", partialExpr)]⟩] [⟨[("resource", partialExpr)]⟩]
    [obj₀] [obj₀] planMixed planMixed rfl rfl rfl rfl

/-- C10 applied to a single partial result for the capability-less type `Bare`. -/
theorem C10_no_capability_check_without_complete_witness :
    authorized_query evPartial build_filter_planModel filter_dataModel host₀
      (.str "alice") (.str "read") "Bare" =
      .ok (filter_dataModel (build_filter_planModel host₀
        [⟨[("resource", partialExpr)]⟩] "resource" "Bare")) :=
  C10_no_capability_check_without_complete evPartial build_filter_planModel
    filter_dataModel host₀ (.str "alice") (.str "read") "Bare" "Bare"
    bareEntry bareEntry [⟨[("resource", partialExpr)]⟩] rfl rfl rfl rfl rfl

end Oso
